import Mathlib

/-
Verification of the certificate subsystem of containerlab (package cert,
src/cert/cert.go) via a shallow embedding in Lean.

The file system is modelled as an association list from path strings to
nodes (regular files or directories).  Cryptographic material produced by
the external PKI library (cfssl) is modelled symbolically: a key carries a
numeric identity, a certificate records its subject request, the id of its
own public key and the id of the key that signed it.  Fallible external
primitives (key generation, signer construction, signing) are given a
fault-injection parameter so that their failure branches in the embedded
source functions are reachable.
-/

set_option autoImplicit false
set_option linter.unusedVariables false

namespace CertSpec

/-- Decidable equality for Except values with decidable components, used to
evaluate run results on concrete inputs. -/
instance {ε α : Type} [DecidableEq ε] [DecidableEq α] : DecidableEq (Except ε α) := fun a b =>
  match a, b with
  | .error e, .error f =>
      if h : e = f then .isTrue (by rw [h]) else .isFalse (by intro hc; cases hc; exact h rfl)
  | .ok x, .ok y =>
      if h : x = y then .isTrue (by rw [h]) else .isFalse (by intro hc; cases hc; exact h rfl)
  | .error _, .ok _ => .isFalse (by intro hc; cases hc)
  | .ok _, .error _ => .isFalse (by intro hc; cases hc)

/-- Key parameters of a certificate request (cfssl csr.KeyRequest):
algorithm name and size in bits. -/
structure KeyRequest where
  algo : String
  size : Nat
  deriving DecidableEq, Repr

/-- Default key request, cfssl csr.NewKeyRequest(): an rsa key of 2048 bits. -/
def newKeyRequest : KeyRequest := { algo := "rsa", size := 2048 }

/-- One subject-name entry of a certificate request (country, locality,
organization, organization unit). -/
structure NameEntry where
  C : String
  L : String
  O : String
  OU : String
  deriving DecidableEq, Repr

/-- A parsed certificate request (the fields of cfssl csr.CertificateRequest
that this package uses: CN, key parameters, subject names, hosts, and the CA
expiry block present only in the root template). -/
structure CertificateRequest where
  CN : String
  keyRequest : KeyRequest
  names : List NameEntry
  hosts : List String
  caExpiry : Option String
  deriving DecidableEq, Repr

/-- A symbolic private/public key pair, identified by a numeric id. -/
structure SymKey where
  keyId : Nat
  keyReq : KeyRequest
  deriving DecidableEq, Repr

/-- A symbolic certificate signing request: the request content plus the id
of the key pair it was built for. -/
structure SymCsr where
  req : CertificateRequest
  pubKeyId : Nat
  deriving DecidableEq, Repr

/-- A symbolic certificate: subject request content, the id of the certified
public key, the id of the key that produced the signature, and the CA flag. -/
structure SymCert where
  subject : CertificateRequest
  pubKeyId : Nat
  issuerKeyId : Nat
  isCA : Bool
  deriving DecidableEq, Repr

/-- PEM-style byte content of a file or of a field of the Certificates
struct.  Raw covers arbitrary non-PKI byte strings; the three Pem forms are
the symbolic serializations of PKI material. -/
inductive Bytes where
  | raw (s : String)
  | certPem (c : SymCert)
  | keyPem (k : SymKey)
  | csrPem (r : SymCsr)
  deriving DecidableEq, Repr

/-- The Certificates struct of the source: Key, Csr, Cert byte fields. -/
structure Certificates where
  Key : Bytes
  Csr : Bytes
  Cert : Bytes
  deriving DecidableEq, Repr

/-- The CertInput struct of the source. -/
structure CertInput where
  Hosts : List String := []
  CommonName : String := ""
  Country : String := ""
  Locality : String := ""
  Organization : String := ""
  OrganizationUnit : String := ""
  Expiry : String := ""
  Name : String := ""
  LongName : String := ""
  Fqdn : String := ""
  Prefix : String := ""
  deriving DecidableEq, Repr

/-- The CaRootInput struct of the source (Names is unused by the source). -/
structure CaRootInput where
  CommonName : String := ""
  Country : String := ""
  Locality : String := ""
  Organization : String := ""
  OrganizationUnit : String := ""
  Expiry : String := ""
  Prefix : String := ""
  Names : List (String × String) := []
  NamePrefix : String := ""
  deriving DecidableEq, Repr

/-- A node of the modelled file system: a regular file with content, or a
directory. -/
inductive FNode where
  | file (data : Bytes)
  | dir
  deriving DecidableEq, Repr

/-- Whether a file-system node is a directory (os.FileInfo.IsDir). -/
def FNode.isDir : FNode → Bool
  | .file _ => false
  | .dir => true

/-- The file system: an association list from absolute path strings to
nodes; the first binding for a path is the current one. -/
abbrev Fs := List (String × FNode)

/-- Look up the current node bound to a path. -/
def fsFind : Fs → String → Option FNode
  | [], _ => none
  | (q, n) :: rest, p => if p = q then some n else fsFind rest p

/-- Bind a path to a node, shadowing any previous binding. -/
def fsSet (fs : Fs) (p : String) (n : FNode) : Fs := (p, n) :: fs

/-- Errors of the modelled file-system operations.  notExist corresponds to
an os error satisfying os.IsNotExist; isDirErr to reading a directory as a
file; otherErr stands for any other I/O error. -/
inductive FsError where
  | notExist
  | isDirErr
  | otherErr
  deriving DecidableEq, Repr

/-- Models Go filepath.Join for the clean, nonempty path segments this
package joins: concatenation with a single separator. -/
def pathJoin (a b : String) : String := a ++ "/" ++ b

/-- Models os.Stat over the file-system map: the node when the path exists,
a not-found error otherwise. -/
def stat (p : String) (fs : Fs) : Except FsError FNode :=
  match fsFind fs p with
  | some n => .ok n
  | none => .error .notExist

/-- Whether os.Stat on the path returns a nil error. -/
def statSucceeds (p : String) (fs : Fs) : Bool :=
  match stat p fs with
  | .ok _ => true
  | .error _ => false

/-- Modelled from the spec: utils.CreateDirectory (not under src/) performs
create-if-missing directory creation and never fails on an existing path;
only the target path is tracked, not intermediate parents. -/
def createDirectory (p : String) (fs : Fs) : Fs :=
  match fsFind fs p with
  | some _ => fs
  | none => fsSet fs p .dir

/-- Modelled from the spec: utils.CreateFile (not under src/) writes the
content to the path as an unconditional overwrite. -/
def createFile (p : String) (content : Bytes) (fs : Fs) : Fs :=
  fsSet fs p (.file content)

/-- Modelled from the spec: utils.ReadFileContent (not under src/) is a raw
byte-level read that fails with a distinguishable not-found error when the
file is absent. -/
def readFileContent (p : String) (fs : Fs) : Except FsError Bytes :=
  match fsFind fs p with
  | some (.file b) => .ok b
  | some .dir => .error .isDirErr
  | none => .error .notExist

/-- A string that can be interpolated into a JSON string literal without
changing the document structure: no quote, no backslash, no control
character.  Strings violating this are conservatively modelled as producing
an unparsable rendered document. -/
def jsonSafe (s : String) : Bool :=
  s.data.all (fun c => !(c = Char.ofNat 34 || c = Char.ofNat 92 || c.toNat < 32))

/-- The content of a well-formed rendered CSR JSON document; an absent field
leaves the corresponding field of the pre-initialized request unchanged when
unmarshalled. -/
structure DocCSR where
  cn : Option String
  key : Option KeyRequest
  names : Option (List NameEntry)
  hosts : Option (List String)
  caExpiry : Option String
  deriving DecidableEq, Repr

/-- A rendered CSR document: either well-formed JSON with the given content,
or a document json.Unmarshal rejects. -/
inductive Doc where
  | ok (d : DocCSR)
  | malformed
  deriving DecidableEq, Repr

/-- A parsed text/template value as this package passes them around: the two
template constants of the source, a template whose Execute fails with a
message, or an arbitrary constant document (covering caller-supplied
templates). -/
inductive Tpl where
  | rootTpl
  | nodeTpl
  | failingTpl (msg : String)
  | constTpl (d : Doc)
  deriving DecidableEq, Repr

/-- The subject-name entry fixed by both template constants of the source. -/
def nokiaNames : NameEntry := { C := "BE", L := "Antwerp", O := "Nokia", OU := "Container lab" }

/-- The document rendered by the rootCACSRTempl constant for a given Prefix
value: CN "Prefix Root CA", rsa 2048 key, fixed names, CA expiry 262800h,
no hosts field. -/
def rootDoc (pfx : String) : DocCSR :=
  { cn := some (pfx ++ " Root CA")
    key := some { algo := "rsa", size := 2048 }
    names := some [nokiaNames]
    hosts := none
    caExpiry := some "262800h" }

/-- The document rendered by the NodeCSRTempl constant: CN "Name.Prefix.io",
rsa 2048 key, fixed names, hosts Name, LongName, Fqdn, no CA block. -/
def nodeDoc (input : CertInput) : DocCSR :=
  { cn := some (input.Name ++ "." ++ input.Prefix ++ ".io")
    key := some { algo := "rsa", size := 2048 }
    names := some [nokiaNames]
    hosts := some [input.Name, input.LongName, input.Fqdn]
    caExpiry := none }

/-- Models tpl.Execute with a CertInput value (the csrBuff produced at
src/cert/cert.go:142), composed with the parse of the rendered text into a
document.  Executing the root template constant reads only the Prefix field,
which CertInput also has. -/
def renderNode : Tpl → CertInput → Except String Doc
  | .nodeTpl, input =>
      if jsonSafe input.Name && jsonSafe input.Prefix
          && jsonSafe input.LongName && jsonSafe input.Fqdn then
        .ok (.ok (nodeDoc input))
      else .ok .malformed
  | .rootTpl, input =>
      if jsonSafe input.Prefix then .ok (.ok (rootDoc input.Prefix))
      else .ok .malformed
  | .failingTpl msg, _ => .error msg
  | .constTpl d, _ => .ok d

/-- Models tpl.Execute with a CaRootInput value (the csrBuff produced at
src/cert/cert.go:110).  Executing the node template constant fails because
CaRootInput has no Name field. -/
def renderRoot : Tpl → CaRootInput → Except String Doc
  | .rootTpl, input =>
      if jsonSafe input.Prefix then .ok (.ok (rootDoc input.Prefix))
      else .ok .malformed
  | .nodeTpl, _ => .error "template: ca-csr: cannot evaluate field Name"
  | .failingTpl msg, _ => .error msg
  | .constTpl d, _ => .ok d

/-- Models json.Unmarshal of a rendered document into a CertificateRequest
pre-initialized with the default key request (src/cert/cert.go:114-120 and
147-153): fields present in the document overwrite, absent fields keep the
zero value, and the key field keeps the default when absent. -/
def unmarshalCSR : Doc → Except String CertificateRequest
  | .malformed => .error "invalid character in JSON document"
  | .ok d =>
      .ok
        { CN := d.cn.getD ""
          keyRequest := d.key.getD newKeyRequest
          names := d.names.getD []
          hosts := d.hosts.getD []
          caExpiry := d.caExpiry }

/-- Fault-injection flags for the fallible external PKI primitives. -/
structure Faults where
  genKeyFail : Bool := false
  signerNewFail : Bool := false
  signFail : Bool := false
  initcaFail : Bool := false
  deriving DecidableEq, Repr

/-- The world threaded through the embedded functions: the file system, a
counter supplying fresh key ids, the warning log, and the fault flags of the
external primitives. -/
structure World where
  fs : Fs
  nextKeyId : Nat := 0
  warnings : List String := []
  faults : Faults := {}
  deriving DecidableEq, Repr

/-- Models cfssl initca.New: generate a fresh CA key pair from the request
key parameters and self-sign a CA certificate.  Returns (cert, csrPEM, key)
in the order of src/cert/cert.go:123. -/
def initcaNew (req : CertificateRequest) (w : World) :
    Except String ((Bytes × Bytes × Bytes) × World) :=
  if w.faults.initcaFail then .error "initca generation failed"
  else
    let kid := w.nextKeyId
    .ok ((Bytes.certPem { subject := req, pubKeyId := kid, issuerKeyId := kid, isCA := true },
          Bytes.csrPem { req := req, pubKeyId := kid },
          Bytes.keyPem { keyId := kid, keyReq := req.keyRequest }),
         { w with nextKeyId := kid + 1 })

/-- Models csr.Generator.ProcessRequest with the genkey validator: generate
a fresh key pair and build the CSR for the request.  Returns
(csrBytes, key) in the order of src/cert/cert.go:157. -/
def processRequest (req : CertificateRequest) (w : World) :
    Except String ((Bytes × Bytes) × World) :=
  if w.faults.genKeyFail then .error "failed to generate key"
  else
    let kid := w.nextKeyId
    .ok ((Bytes.csrPem { req := req, pubKeyId := kid },
          Bytes.keyPem { keyId := kid, keyReq := req.keyRequest }),
         { w with nextKeyId := kid + 1 })

/-- A constructed local signer: the CA certificate and CA key loaded from
the configured cert-file and key-file paths. -/
structure Signer where
  caCert : SymCert
  caKey : SymKey
  deriving DecidableEq, Repr

/-- Models universal.NewSigner with a local root bound to the cert-file and
key-file paths (src/cert/cert.go:166-173): construction fails when either
file is absent or does not parse as the expected PEM material. -/
def newSigner (ca caKey : String) (w : World) : Except String Signer :=
  if w.faults.signerNewFail then .error "failed to construct signer"
  else
    match fsFind w.fs ca, fsFind w.fs caKey with
    | some (.file (.certPem c)), some (.file (.keyPem k)) => .ok { caCert := c, caKey := k }
    | _, _ => .error "failed to load CA certificate or key"

/-- Models signer.Sign on a SignRequest whose Request field holds the CSR
text: the issued leaf certificate certifies the CSR key and is signed by
the signer's CA key. -/
def signerSign (s : Signer) (csrBytes : Bytes) (f : Faults) : Except String Bytes :=
  if f.signFail then .error "failed to sign certificate"
  else
    match csrBytes with
    | .csrPem r =>
        .ok (Bytes.certPem
          { subject := r.req, pubKeyId := r.pubKeyId, issuerKeyId := s.caKey.keyId, isCA := false })
    | _ => .error "malformed CSR in sign request"

/-- Chain validation: a certificate validates against a CA certificate
exactly when its signature was produced by the key pair that the CA
certificate certifies. -/
def validateCert (leaf ca : SymCert) : Bool := leaf.issuerKeyId == ca.pubKeyId

/-- The cfssl generator.CSRNoHostMessage constant logged as a warning. -/
def CSRNoHostMessage : String :=
  "csr has no host/SAN entries and will not be usable for server authentication"

/-- writeCertFiles (src/cert/cert.go:228-232): write certificate, key and
CSR under the files prefix with the fixed suffixes, in source order. -/
def writeCertFiles (certs : Certificates) (filesPrefix : String) (fs : Fs) : Fs :=
  createFile (filesPrefix ++ ".csr") certs.Csr
    (createFile (filesPrefix ++ "-key.pem") certs.Key
      (createFile (filesPrefix ++ ".pem") certs.Cert fs))

/-- GenerateRootCa (src/cert/cert.go:104-134): create the CA root directory,
render and parse the root CSR template, self-sign via initca, and persist
the triple under labCARoot joined with the input NamePrefix. -/
def GenerateRootCa (labCARoot : String) (csrRootJsonTpl : Tpl) (input : CaRootInput)
    (w : World) : Except String Certificates × World :=
  let w1 : World := { w with fs := createDirectory labCARoot w.fs }
  match renderRoot csrRootJsonTpl input with
  | .error e => (.error e, w1)
  | .ok doc =>
    match unmarshalCSR doc with
    | .error e => (.error e, w1)
    | .ok req =>
      match initcaNew req w1 with
      | .error e => (.error e, w1)
      | .ok ((cert, csrPEM, key), w2) =>
        let certs : Certificates := { Key := key, Csr := csrPEM, Cert := cert }
        (.ok certs,
         { w2 with fs := writeCertFiles certs (pathJoin labCARoot input.NamePrefix) w2.fs })

/-- GenerateCert (src/cert/cert.go:138-197): create the target directory,
render and parse the CSR template, generate the key and CSR, construct a
signer over the ca and caKey file paths, sign, warn when the request host
list is empty, persist the triple under targetPath joined with the input
Name, and return the bundle. -/
def GenerateCert (ca caKey : String) (csrJSONTpl : Tpl) (input : CertInput)
    (targetPath : String) (w : World) : Except String Certificates × World :=
  let w1 : World := { w with fs := createDirectory targetPath w.fs }
  match renderNode csrJSONTpl input with
  | .error e => (.error e, w1)
  | .ok doc =>
    match unmarshalCSR doc with
    | .error e => (.error e, w1)
    | .ok req =>
      match processRequest req w1 with
      | .error e => (.error e, w1)
      | .ok ((csrBytes, key), w2) =>
        match newSigner ca caKey w2 with
        | .error e => (.error e, w2)
        | .ok s =>
          match signerSign s csrBytes w2.faults with
          | .error e => (.error e, w2)
          | .ok cert =>
            let w3 : World :=
              if req.hosts.isEmpty then
                { w2 with warnings := w2.warnings ++ [CSRNoHostMessage] }
              else w2
            let certs : Certificates := { Key := key, Csr := csrBytes, Cert := cert }
            (.ok certs,
             { w3 with fs := writeCertFiles certs (pathJoin targetPath input.Name) w3.fs })

/-- RetrieveNodeCertData (src/cert/cert.go:201-226): stat the per-node
directory (returning the stat error, which is nil when the path exists but
is not a directory), then read the certificate and the key files; the Csr
field of the returned struct stays at its zero value. -/
def RetrieveNodeCertData (shortName : String) (labCADir : String) (fs : Fs) :
    Option Certificates × Option FsError :=
  let nodeCertFilesDir := pathJoin labCADir shortName
  let nodeCertFile := pathJoin nodeCertFilesDir (shortName ++ ".pem")
  let nodeKeyFile := pathJoin nodeCertFilesDir (shortName ++ "-key.pem")
  match stat nodeCertFilesDir fs with
  | .error e => (none, some e)
  | .ok st =>
    if !st.isDir then (none, none)
    else
      match readFileContent nodeCertFile fs with
      | .error e => (none, some e)
      | .ok certB =>
        match readFileContent nodeKeyFile fs with
        | .error e => (none, some e)
        | .ok keyB => (some { Key := keyB, Csr := Bytes.raw "", Cert := certB }, none)

/-- One entry of the node map passed to CreateRootCA: the node kind read
through n.Config().Kind. -/
structure NodeDef where
  kind : String
  deriving DecidableEq, Repr

/-- The loop of src/cert/cert.go:239-244: the root CA is needed exactly when
some node has kind "srl". -/
def rootCANeeded (ns : List NodeDef) : Bool :=
  ns.any (fun n => n.kind == "srl")

/-- CreateRootCA (src/cert/cert.go:235-288): return nil when no node kind
requires a CA; skip generation when both well-known root files exist; else
parse the root template constant (which always parses) and generate and
persist the root CA, wrapping any generation error. -/
def CreateRootCA (configName labCARoot : String) (ns : List NodeDef) (w : World) :
    Except String Unit × World :=
  if !rootCANeeded ns then (.ok (), w)
  else
    let rootCaCertExists := statSucceeds (pathJoin labCARoot "root-ca.pem") w.fs
    let rootCaKeyExists := statSucceeds (pathJoin labCARoot "root-ca-key.pem") w.fs
    if rootCaCertExists && rootCaKeyExists then (.ok (), w)
    else
      match GenerateRootCa labCARoot .rootTpl
          { Prefix := configName, NamePrefix := "root-ca" } w with
      | (.error e, w1) => (.error ("failed to generate rootCa: " ++ e), w1)
      | (.ok _, w1) => (.ok (), w1)

/-- Both well-known root CA files exist under labCARoot (the skip condition
of src/cert/cert.go:253-267). -/
def bothRootFilesExist (labCARoot : String) (fs : Fs) : Bool :=
  statSucceeds (pathJoin labCARoot "root-ca.pem") fs
    && statSucceeds (pathJoin labCARoot "root-ca-key.pem") fs

/-- The certificate request obtained by rendering and unmarshalling the root
CA CSR template for a given lab prefix. -/
def rootReq (pfx : String) : CertificateRequest :=
  { CN := pfx ++ " Root CA"
    keyRequest := { algo := "rsa", size := 2048 }
    names := [nokiaNames]
    hosts := []
    caExpiry := some "262800h" }

/-- The root CA bundle generated from the root template with prefix pfx and
fresh key id kid. -/
def rootCerts (pfx : String) (kid : Nat) : Certificates :=
  { Key := Bytes.keyPem { keyId := kid, keyReq := { algo := "rsa", size := 2048 } }
    Csr := Bytes.csrPem { req := rootReq pfx, pubKeyId := kid }
    Cert := Bytes.certPem
      { subject := rootReq pfx, pubKeyId := kid, issuerKeyId := kid, isCA := true } }

/-- The leaf bundle produced by GenerateCert from request req, signing key
id issuer and fresh key id kid. -/
def leafCerts (req : CertificateRequest) (issuer kid : Nat) : Certificates :=
  { Key := Bytes.keyPem { keyId := kid, keyReq := req.keyRequest }
    Csr := Bytes.csrPem { req := req, pubKeyId := kid }
    Cert := Bytes.certPem
      { subject := req, pubKeyId := kid, issuerKeyId := issuer, isCA := false } }

/-! Helper lemmas about strings, paths and the file-system model. -/

theorem string_append_cancel_left {a b c : String} (h : a ++ b = a ++ c) : b = c := by
  have hd := congrArg String.data h
  simp [String.data_append] at hd
  exact String.ext hd

theorem string_append_ne (a : String) {b c : String} (h : b ≠ c) : a ++ b ≠ a ++ c :=
  fun he => h (string_append_cancel_left he)

theorem pathJoin_append (a b c : String) : pathJoin a b ++ c = pathJoin a (b ++ c) := by
  simp [pathJoin, String.append_assoc]

theorem pathJoin_ne_of_ne (a : String) {b c : String} (h : b ≠ c) :
    pathJoin a b ≠ pathJoin a c :=
  string_append_ne (a ++ "/") h

theorem pathJoin_ne_left (a b : String) : pathJoin a b ≠ a := by
  intro h
  have hl := congrArg String.length h
  simp [pathJoin, String.length_append, show ("/" : String).length = 1 from rfl] at hl
  omega

theorem fsFind_fsSet (fs : Fs) (p q : String) (n : FNode) :
    fsFind (fsSet fs q n) p = if p = q then some n else fsFind fs p := rfl

theorem fsFind_createDirectory_of_found {fs : Fs} {p : String} {n : FNode} (q : String)
    (h : fsFind fs p = some n) : fsFind (createDirectory q fs) p = some n := by
  unfold createDirectory
  cases hq : fsFind fs q with
  | some m => exact h
  | none =>
    by_cases hpq : p = q
    · rw [hpq] at h; rw [h] at hq; exact absurd hq (by simp)
    · simp [fsSet, fsFind, hpq, h]

theorem fsFind_writeCertFiles (certs : Certificates) (filesPrefix : String) (fs : Fs)
    (p : String) :
    fsFind (writeCertFiles certs filesPrefix fs) p =
      if p = filesPrefix ++ ".csr" then some (.file certs.Csr)
      else if p = filesPrefix ++ "-key.pem" then some (.file certs.Key)
      else if p = filesPrefix ++ ".pem" then some (.file certs.Cert)
      else fsFind fs p := rfl

theorem fsFind_write_pem (certs : Certificates) (filesPrefix : String) (fs : Fs) :
    fsFind (writeCertFiles certs filesPrefix fs) (filesPrefix ++ ".pem") =
      some (.file certs.Cert) := by
  rw [fsFind_writeCertFiles]
  rw [if_neg (string_append_ne filesPrefix (by decide))]
  rw [if_neg (string_append_ne filesPrefix (by decide))]
  rw [if_pos rfl]

theorem fsFind_write_key (certs : Certificates) (filesPrefix : String) (fs : Fs) :
    fsFind (writeCertFiles certs filesPrefix fs) (filesPrefix ++ "-key.pem") =
      some (.file certs.Key) := by
  rw [fsFind_writeCertFiles]
  rw [if_neg (string_append_ne filesPrefix (by decide))]
  rw [if_pos rfl]

theorem fsFind_write_csr (certs : Certificates) (filesPrefix : String) (fs : Fs) :
    fsFind (writeCertFiles certs filesPrefix fs) (filesPrefix ++ ".csr") =
      some (.file certs.Csr) := by
  rw [fsFind_writeCertFiles]
  rw [if_pos rfl]

/-- Unfolding of CreateRootCA through the named gating and skip conditions. -/
theorem createRootCA_eq (configName labCARoot : String) (ns : List NodeDef) (w : World) :
    CreateRootCA configName labCARoot ns w =
      if !rootCANeeded ns then (.ok (), w)
      else if bothRootFilesExist labCARoot w.fs then (.ok (), w)
      else
        match GenerateRootCa labCARoot .rootTpl
            { Prefix := configName, NamePrefix := "root-ca" } w with
        | (.error e, w1) => (.error ("failed to generate rootCa: " ++ e), w1)
        | (.ok _, w1) => (.ok (), w1) := rfl

/-- Computation of GenerateRootCa on the root template in the fault-free,
JSON-safe case. -/
theorem generateRootCa_run (labCARoot configName : String) (w : World)
    (hfault : w.faults.initcaFail = false) (hsafe : jsonSafe configName = true) :
    GenerateRootCa labCARoot .rootTpl { Prefix := configName, NamePrefix := "root-ca" } w =
      (.ok (rootCerts configName w.nextKeyId),
       { fs := writeCertFiles (rootCerts configName w.nextKeyId)
                 (pathJoin labCARoot "root-ca") (createDirectory labCARoot w.fs)
         nextKeyId := w.nextKeyId + 1
         warnings := w.warnings
         faults := w.faults }) := by
  simp [GenerateRootCa, renderRoot, hsafe, unmarshalCSR, initcaNew, hfault, rootDoc,
    rootCerts, rootReq]

/-- The three well-known root file paths hold the bundle fields after
writeCertFiles under the root-ca prefix. -/
theorem rootFiles_after_write (labCARoot : String) (certs : Certificates) (fs : Fs) :
    fsFind (writeCertFiles certs (pathJoin labCARoot "root-ca") fs)
        (pathJoin labCARoot "root-ca.pem") = some (.file certs.Cert)
    ∧ fsFind (writeCertFiles certs (pathJoin labCARoot "root-ca") fs)
        (pathJoin labCARoot "root-ca-key.pem") = some (.file certs.Key)
    ∧ fsFind (writeCertFiles certs (pathJoin labCARoot "root-ca") fs)
        (pathJoin labCARoot "root-ca.csr") = some (.file certs.Csr) := by
  refine ⟨?_, ?_, ?_⟩
  · have hp : pathJoin labCARoot "root-ca.pem" = pathJoin labCARoot "root-ca" ++ ".pem" := by
      rw [pathJoin_append]; rfl
    rw [hp, fsFind_write_pem]
  · have hp : pathJoin labCARoot "root-ca-key.pem" =
        pathJoin labCARoot "root-ca" ++ "-key.pem" := by
      rw [pathJoin_append]; rfl
    rw [hp, fsFind_write_key]
  · have hp : pathJoin labCARoot "root-ca.csr" = pathJoin labCARoot "root-ca" ++ ".csr" := by
      rw [pathJoin_append]; rfl
    rw [hp, fsFind_write_csr]

/-- Computation of CreateRootCA on the generation path: CA needed, at least
one root file missing, fault-free primitives, JSON-safe lab name. -/
theorem createRootCA_generates (configName labCARoot : String) (ns : List NodeDef) (w : World)
    (hneed : rootCANeeded ns = true) (hboth : bothRootFilesExist labCARoot w.fs = false)
    (hfault : w.faults.initcaFail = false) (hsafe : jsonSafe configName = true) :
    CreateRootCA configName labCARoot ns w =
      (.ok (),
       { fs := writeCertFiles (rootCerts configName w.nextKeyId)
                 (pathJoin labCARoot "root-ca") (createDirectory labCARoot w.fs)
         nextKeyId := w.nextKeyId + 1
         warnings := w.warnings
         faults := w.faults }) := by
  rw [createRootCA_eq]
  simp [hneed, hboth, generateRootCa_run labCARoot configName w hfault hsafe]

/-- C1: when some node requires a CA, CreateRootCA skips regeneration
exactly when both well-known root files exist: with both present it returns
successfully with the world untouched (no content validation); with either
missing (fault-free external primitives, JSON-safe lab name) it renders the
root CSR template, parses it into a request with the default rsa-2048 key,
self-signs (the issuer key id equals the certified key id), and persists
certificate, key and CSR under labCARoot/root-ca*. -/
theorem createRootCA_skip_iff_both_exist
    (configName labCARoot : String) (ns : List NodeDef) (w : World)
    (hneed : rootCANeeded ns = true) :
    (bothRootFilesExist labCARoot w.fs = true →
      CreateRootCA configName labCARoot ns w = (.ok (), w))
    ∧ (bothRootFilesExist labCARoot w.fs = false →
        w.faults.initcaFail = false → jsonSafe configName = true →
        CreateRootCA configName labCARoot ns w =
          (.ok (),
           { fs := writeCertFiles (rootCerts configName w.nextKeyId)
                     (pathJoin labCARoot "root-ca") (createDirectory labCARoot w.fs)
             nextKeyId := w.nextKeyId + 1
             warnings := w.warnings
             faults := w.faults })
        ∧ fsFind (CreateRootCA configName labCARoot ns w).2.fs
            (pathJoin labCARoot "root-ca.pem") =
            some (.file (Bytes.certPem
              { subject := rootReq configName, pubKeyId := w.nextKeyId,
                issuerKeyId := w.nextKeyId, isCA := true }))
        ∧ fsFind (CreateRootCA configName labCARoot ns w).2.fs
            (pathJoin labCARoot "root-ca-key.pem") =
            some (.file (Bytes.keyPem
              { keyId := w.nextKeyId, keyReq := { algo := "rsa", size := 2048 } }))
        ∧ fsFind (CreateRootCA configName labCARoot ns w).2.fs
            (pathJoin labCARoot "root-ca.csr") =
            some (.file (Bytes.csrPem
              { req := rootReq configName, pubKeyId := w.nextKeyId }))) := by
  constructor
  · intro hboth
    rw [createRootCA_eq]
    simp [hneed, hboth]
  · intro hboth hfault hsafe
    have heq := createRootCA_generates configName labCARoot ns w hneed hboth hfault hsafe
    have hfiles := rootFiles_after_write labCARoot (rootCerts configName w.nextKeyId)
      (createDirectory labCARoot w.fs)
    refine ⟨heq, ?_, ?_, ?_⟩
    · rw [heq]; exact hfiles.1
    · rw [heq]; exact hfiles.2.1
    · rw [heq]; exact hfiles.2.2

/-- Concrete world with no files, used by several witnesses. -/
def emptyWorld : World := { fs := [] }

/-- Concrete world in which both well-known root files already exist under
lab CA root "ca" with arbitrary (unvalidated) content. -/
def bothWorld : World :=
  { fs := [(pathJoin "ca" "root-ca.pem", FNode.file (Bytes.raw "not a cert")),
           (pathJoin "ca" "root-ca-key.pem", FNode.file (Bytes.raw "not a key"))] }

/-- Concrete node list with one CA-requiring node. -/
def srlNodes : List NodeDef := [{ kind := "srl" }]

theorem createRootCA_skip_iff_both_exist_witness :
    CreateRootCA "lab" "ca" srlNodes bothWorld = (.ok (), bothWorld)
    ∧ fsFind (CreateRootCA "lab" "ca" srlNodes emptyWorld).2.fs
        (pathJoin "ca" "root-ca.pem") =
        some (.file (Bytes.certPem
          { subject := rootReq "lab", pubKeyId := 0, issuerKeyId := 0, isCA := true })) :=
  ⟨(createRootCA_skip_iff_both_exist "lab" "ca" srlNodes bothWorld (by decide)).1 (by decide),
   ((createRootCA_skip_iff_both_exist "lab" "ca" srlNodes emptyWorld
      (by decide)).2 (by decide) (by decide) (by decide)).2.1⟩

/-- C2: file-level idempotence of CA bootstrap: when a first CreateRootCA
call succeeds and leaves both well-known root files in place, a second call
with identical inputs returns successfully and leaves the whole world (in
particular every file) unchanged. -/
theorem createRootCA_idempotent
    (configName labCARoot : String) (ns : List NodeDef) (w : World)
    (h1 : (CreateRootCA configName labCARoot ns w).1 = .ok ())
    (hboth : bothRootFilesExist labCARoot
      (CreateRootCA configName labCARoot ns w).2.fs = true) :
    CreateRootCA configName labCARoot ns (CreateRootCA configName labCARoot ns w).2 =
      (.ok (), (CreateRootCA configName labCARoot ns w).2) := by
  rw [createRootCA_eq]
  cases hn : rootCANeeded ns with
  | false => simp [hn]
  | true => simp [hn, hboth]

theorem createRootCA_idempotent_witness :
    CreateRootCA "lab" "ca" srlNodes (CreateRootCA "lab" "ca" srlNodes emptyWorld).2 =
      (.ok (), (CreateRootCA "lab" "ca" srlNodes emptyWorld).2) :=
  createRootCA_idempotent "lab" "ca" srlNodes emptyWorld (by decide) (by decide)

/-- C3: necessity gating: the root CA is needed exactly when some node kind
is in the allow-list (which contains exactly "srl"); with no such node,
CreateRootCA returns nil and the world — in particular every directory and
file — is untouched; with such a node and a missing root file (fault-free,
JSON-safe name) the bootstrap runs and the three root files are created. -/
theorem createRootCA_necessity_gating
    (configName labCARoot : String) (ns : List NodeDef) (w : World) :
    (rootCANeeded ns = true ↔ ∃ n ∈ ns, n.kind = "srl")
    ∧ (rootCANeeded ns = false → CreateRootCA configName labCARoot ns w = (.ok (), w))
    ∧ (rootCANeeded ns = true → bothRootFilesExist labCARoot w.fs = false →
        w.faults.initcaFail = false → jsonSafe configName = true →
        fsFind (CreateRootCA configName labCARoot ns w).2.fs
            (pathJoin labCARoot "root-ca.pem") =
            some (.file (rootCerts configName w.nextKeyId).Cert)
        ∧ fsFind (CreateRootCA configName labCARoot ns w).2.fs
            (pathJoin labCARoot "root-ca-key.pem") =
            some (.file (rootCerts configName w.nextKeyId).Key)
        ∧ fsFind (CreateRootCA configName labCARoot ns w).2.fs
            (pathJoin labCARoot "root-ca.csr") =
            some (.file (rootCerts configName w.nextKeyId).Csr)) := by
  refine ⟨?_, ?_, ?_⟩
  · simp [rootCANeeded, List.any_eq_true, beq_iff_eq]
  · intro hn
    rw [createRootCA_eq]
    simp [hn]
  · intro hneed hboth hfault hsafe
    have heq := createRootCA_generates configName labCARoot ns w hneed hboth hfault hsafe
    have hfiles := rootFiles_after_write labCARoot (rootCerts configName w.nextKeyId)
      (createDirectory labCARoot w.fs)
    rw [heq]
    exact hfiles

/-- Concrete node list containing only kinds outside the CA allow-list. -/
def linuxNodes : List NodeDef := [{ kind := "linux" }, { kind := "ceos" }]

theorem createRootCA_necessity_gating_witness :
    CreateRootCA "lab" "ca" linuxNodes bothWorld = (.ok (), bothWorld)
    ∧ fsFind (CreateRootCA "lab" "ca" srlNodes emptyWorld).2.fs
        (pathJoin "ca" "root-ca-key.pem") = some (.file (rootCerts "lab" 0).Key) :=
  ⟨(createRootCA_necessity_gating "lab" "ca" linuxNodes bothWorld).2.1 (by decide),
   ((createRootCA_necessity_gating "lab" "ca" srlNodes emptyWorld).2.2
      (by decide) (by decide) (by decide) (by decide)).2.1⟩

/-- C5: deterministic file layout of persistence: writeCertFiles binds
exactly the three paths filesPrefix.pem (certificate), filesPrefix-key.pem
(private key) and filesPrefix.csr (CSR) and leaves every other path
unchanged; the target directory creation performed before persisting is
create-if-missing: it creates the path when absent and is the identity when
the path already exists (never fails). -/
theorem persist_writes_exactly_three_files
    (certs : Certificates) (filesPrefix : String) (fs : Fs) (p d : String) :
    (fsFind (writeCertFiles certs filesPrefix fs) p =
      if p = filesPrefix ++ ".pem" then some (.file certs.Cert)
      else if p = filesPrefix ++ "-key.pem" then some (.file certs.Key)
      else if p = filesPrefix ++ ".csr" then some (.file certs.Csr)
      else fsFind fs p)
    ∧ (fsFind fs d = none → fsFind (createDirectory d fs) d = some .dir)
    ∧ (fsFind fs d ≠ none → createDirectory d fs = fs) := by
  refine ⟨?_, ?_, ?_⟩
  · have hpk : filesPrefix ++ ".pem" ≠ filesPrefix ++ "-key.pem" :=
      string_append_ne _ (by decide)
    have hpc : filesPrefix ++ ".pem" ≠ filesPrefix ++ ".csr" :=
      string_append_ne _ (by decide)
    have hkc : filesPrefix ++ "-key.pem" ≠ filesPrefix ++ ".csr" :=
      string_append_ne _ (by decide)
    rw [fsFind_writeCertFiles]
    by_cases h1 : p = filesPrefix ++ ".pem"
    · subst h1
      simp [hpk, hpc]
    · by_cases h2 : p = filesPrefix ++ "-key.pem"
      · subst h2
        simp [hkc, Ne.symm hpk]
      · by_cases h3 : p = filesPrefix ++ ".csr"
        · subst h3
          simp [Ne.symm hpc, Ne.symm hkc]
        · simp [h1, h2, h3]
  · intro h
    simp [createDirectory, h, fsSet, fsFind]
  · intro h
    cases hm : fsFind fs d with
    | none => exact absurd hm h
    | some n => simp [createDirectory, hm]

/-- Concrete bundle with raw byte contents, used by witnesses. -/
def bundle0 : Certificates :=
  { Key := Bytes.raw "KEYBYTES", Csr := Bytes.raw "CSRBYTES", Cert := Bytes.raw "CERTBYTES" }

theorem persist_writes_exactly_three_files_witness :
    fsFind (writeCertFiles bundle0 (pathJoin "lab" "spine1") [])
        (pathJoin "lab" "spine1" ++ ".pem") = some (.file bundle0.Cert)
    ∧ fsFind (createDirectory "lab/spine1" []) "lab/spine1" = some FNode.dir := by
  have h := persist_writes_exactly_three_files bundle0 (pathJoin "lab" "spine1") []
    (pathJoin "lab" "spine1" ++ ".pem") "lab/spine1"
  exact ⟨by rw [h.1, if_pos rfl], h.2.1 rfl⟩

/-- C8: retrieval behaviour: when the per-node directory is absent, or the
certificate file is absent, or the key file is absent, RetrieveNodeCertData
returns no bundle together with the not-found error (a constructor distinct
from the generic I/O error); when directory and both files are present it
returns their raw bytes unparsed with an empty Csr field and no error.  The
function is a pure read: it takes the file system and returns only a
result. -/
theorem retrieval_miss_not_found
    (shortName labCADir : String) (fs : Fs) (cb kb : Bytes) :
    (fsFind fs (pathJoin labCADir shortName) = none →
      RetrieveNodeCertData shortName labCADir fs = (none, some FsError.notExist))
    ∧ (fsFind fs (pathJoin labCADir shortName) = some .dir →
        fsFind fs (pathJoin (pathJoin labCADir shortName) (shortName ++ ".pem")) = none →
        RetrieveNodeCertData shortName labCADir fs = (none, some FsError.notExist))
    ∧ (fsFind fs (pathJoin labCADir shortName) = some .dir →
        fsFind fs (pathJoin (pathJoin labCADir shortName) (shortName ++ ".pem")) =
          some (.file cb) →
        fsFind fs (pathJoin (pathJoin labCADir shortName) (shortName ++ "-key.pem")) = none →
        RetrieveNodeCertData shortName labCADir fs = (none, some FsError.notExist))
    ∧ (fsFind fs (pathJoin labCADir shortName) = some .dir →
        fsFind fs (pathJoin (pathJoin labCADir shortName) (shortName ++ ".pem")) =
          some (.file cb) →
        fsFind fs (pathJoin (pathJoin labCADir shortName) (shortName ++ "-key.pem")) =
          some (.file kb) →
        RetrieveNodeCertData shortName labCADir fs =
          (some { Key := kb, Csr := Bytes.raw "", Cert := cb }, none)) := by
  refine ⟨?_, ?_, ?_, ?_⟩
  · intro h
    simp [RetrieveNodeCertData, stat, h]
  · intro hdir hcert
    simp [RetrieveNodeCertData, stat, hdir, FNode.isDir, readFileContent, hcert]
  · intro hdir hcert hkey
    simp [RetrieveNodeCertData, stat, hdir, FNode.isDir, readFileContent, hcert, hkey]
  · intro hdir hcert hkey
    simp [RetrieveNodeCertData, stat, hdir, FNode.isDir, readFileContent, hcert, hkey]

/-- Concrete per-node certificate directory for node n1 under lab CA
directory "lab". -/
def nodeFs : Fs :=
  [("lab/n1", FNode.dir),
   ("lab/n1/n1.pem", FNode.file (Bytes.raw "CERTBYTES")),
   ("lab/n1/n1-key.pem", FNode.file (Bytes.raw "KEYBYTES"))]

theorem retrieval_miss_not_found_witness :
    RetrieveNodeCertData "n1" "lab" [] = (none, some FsError.notExist)
    ∧ RetrieveNodeCertData "n1" "lab" nodeFs =
        (some { Key := Bytes.raw "KEYBYTES", Csr := Bytes.raw "",
                Cert := Bytes.raw "CERTBYTES" }, none) :=
  ⟨(retrieval_miss_not_found "n1" "lab" [] (Bytes.raw "") (Bytes.raw "")).1 rfl,
   (retrieval_miss_not_found "n1" "lab" nodeFs (Bytes.raw "CERTBYTES")
      (Bytes.raw "KEYBYTES")).2.2.2 (by decide) (by decide) (by decide)⟩

/-- C9: when the per-node path exists but is a regular file rather than a
directory, RetrieveNodeCertData returns neither a bundle nor an error: both
components are nil, exactly as the stat error (nil) is returned. -/
theorem retrieve_non_directory_nil_nil
    (shortName labCADir : String) (fs : Fs) (d : Bytes)
    (h : fsFind fs (pathJoin labCADir shortName) = some (.file d)) :
    RetrieveNodeCertData shortName labCADir fs = (none, none) := by
  simp [RetrieveNodeCertData, stat, h, FNode.isDir]

theorem retrieve_non_directory_nil_nil_witness :
    RetrieveNodeCertData "n1" "lab" [("lab/n1", FNode.file (Bytes.raw "stray"))] =
      (none, none) :=
  retrieve_non_directory_nil_nil "n1" "lab" _ (Bytes.raw "stray") (by decide)

/-! Inversion lemmas for the external PKI primitives and GenerateCert. -/

theorem processRequest_ok_inv {req : CertificateRequest} {w : World}
    {out : Bytes × Bytes} {w2 : World}
    (h : processRequest req w = .ok (out, w2)) :
    out = (Bytes.csrPem { req := req, pubKeyId := w.nextKeyId },
           Bytes.keyPem { keyId := w.nextKeyId, keyReq := req.keyRequest })
    ∧ w2 = { w with nextKeyId := w.nextKeyId + 1 } := by
  unfold processRequest at h
  split at h
  · exact absurd h (by simp)
  · simp only [Except.ok.injEq, Prod.mk.injEq] at h
    exact ⟨h.1.symm, h.2.symm⟩

theorem newSigner_ok_inv {ca caKey : String} {w : World} {s : Signer}
    (h : newSigner ca caKey w = .ok s) :
    ∃ c k, fsFind w.fs ca = some (.file (.certPem c))
      ∧ fsFind w.fs caKey = some (.file (.keyPem k))
      ∧ s = { caCert := c, caKey := k } := by
  unfold newSigner at h
  by_cases hsf : w.faults.signerNewFail
  · rw [if_pos hsf] at h
    exact absurd h (by simp)
  · rw [if_neg hsf] at h
    cases h1 : fsFind w.fs ca with
    | none => rw [h1] at h; simp at h
    | some n =>
      rw [h1] at h
      cases n with
      | dir => simp at h
      | file b =>
        cases b with
        | raw s2 => simp at h
        | keyPem k2 => simp at h
        | csrPem r2 => simp at h
        | certPem c =>
          cases h2 : fsFind w.fs caKey with
          | none => rw [h2] at h; simp at h
          | some m =>
            rw [h2] at h
            cases m with
            | dir => simp at h
            | file b2 =>
              cases b2 with
              | raw s3 => simp at h
              | certPem c2 => simp at h
              | csrPem r3 => simp at h
              | keyPem k =>
                refine ⟨c, k, rfl, rfl, ?_⟩
                simp only [Except.ok.injEq] at h
                exact h.symm

theorem signerSign_ok_inv {s : Signer} {csrB : Bytes} {f : Faults} {cert : Bytes}
    (h : signerSign s csrB f = .ok cert) :
    ∃ r, csrB = .csrPem r
      ∧ cert = .certPem
          { subject := r.req, pubKeyId := r.pubKeyId,
            issuerKeyId := s.caKey.keyId, isCA := false } := by
  unfold signerSign at h
  by_cases hf : f.signFail
  · rw [if_pos hf] at h
    exact absurd h (by simp)
  · rw [if_neg hf] at h
    cases csrB with
    | csrPem r =>
      refine ⟨r, rfl, ?_⟩
      simp only [Except.ok.injEq] at h
      exact h.symm
    | raw s2 => simp at h
    | certPem c => simp at h
    | keyPem k => simp at h

/-- Computation of GenerateCert in the fault-free case with a successfully
rendered and parsed template and a readable CA pair. -/
theorem generateCert_run (ca caKey : String) (tpl : Tpl) (input : CertInput)
    (targetPath : String) (w : World) (doc : DocCSR) (req : CertificateRequest)
    (c : SymCert) (k : SymKey)
    (hrender : renderNode tpl input = .ok (.ok doc))
    (hunm : unmarshalCSR (.ok doc) = .ok req)
    (hg : w.faults.genKeyFail = false) (hs : w.faults.signerNewFail = false)
    (hf : w.faults.signFail = false)
    (hca : fsFind (createDirectory targetPath w.fs) ca = some (.file (.certPem c)))
    (hkey : fsFind (createDirectory targetPath w.fs) caKey = some (.file (.keyPem k))) :
    GenerateCert ca caKey tpl input targetPath w =
      (.ok (leafCerts req k.keyId w.nextKeyId),
       { fs := writeCertFiles (leafCerts req k.keyId w.nextKeyId)
                 (pathJoin targetPath input.Name) (createDirectory targetPath w.fs)
         nextKeyId := w.nextKeyId + 1
         warnings := if req.hosts.isEmpty then w.warnings ++ [CSRNoHostMessage]
                     else w.warnings
         faults := w.faults }) := by
  simp only [GenerateCert, hrender, hunm, processRequest, hg, Bool.false_eq_true,
    if_false, newSigner, hs, hca, hkey, signerSign, hf, leafCerts]
  by_cases hh : req.hosts.isEmpty <;> simp [hh, leafCerts]

/-- Any successful GenerateCert run read a CA certificate and key from the
configured paths, returned the leaf bundle built from the parsed request
with a fresh key and the CA key as issuer, and wrote the bundle under
targetPath joined with the input Name. -/
theorem generateCert_ok_inv (ca caKey : String) (tpl : Tpl) (input : CertInput)
    (targetPath : String) (w : World) (certs : Certificates) (w1 : World)
    (hrun : GenerateCert ca caKey tpl input targetPath w = (.ok certs, w1)) :
    ∃ req c k,
      fsFind (createDirectory targetPath w.fs) ca = some (.file (.certPem c))
      ∧ fsFind (createDirectory targetPath w.fs) caKey = some (.file (.keyPem k))
      ∧ certs = leafCerts req k.keyId w.nextKeyId
      ∧ w1.fs = writeCertFiles certs (pathJoin targetPath input.Name)
          (createDirectory targetPath w.fs) := by
  simp only [GenerateCert] at hrun
  split at hrun
  next e heq => simp at hrun
  next doc heq =>
    split at hrun
    next e2 heq2 => simp at hrun
    next req heq2 =>
      split at hrun
      next e3 heq3 => simp at hrun
      next csrB keyB w2 heq3 =>
        obtain ⟨hout, hw2⟩ := processRequest_ok_inv heq3
        simp only [Prod.mk.injEq] at hout
        split at hrun
        next e4 heq4 => simp at hrun
        next s heq4 =>
          obtain ⟨c, k, hc, hk, hsv⟩ := newSigner_ok_inv heq4
          rw [hw2] at hc hk
          split at hrun
          next e5 heq5 => simp at hrun
          next cert heq5 =>
            obtain ⟨r, hcsr, hcert⟩ := signerSign_ok_inv heq5
            simp only [Prod.mk.injEq, Except.ok.injEq] at hrun
            obtain ⟨hcerts, hw1⟩ := hrun
            refine ⟨req, c, k, hc, hk, ?_, ?_⟩
            · rw [← hcerts]
              have hre : r = { req := req, pubKeyId := w.nextKeyId } := by
                have h6 := hout.1
                rw [hcsr] at h6
                exact (Bytes.csrPem.injEq _ _).mp h6
              rw [hcert, hsv, hout.2, hcsr, hre]
              rfl
            · rw [← hw1, ← hcerts]
              by_cases hh : req.hosts.isEmpty <;> simp [hh, hw2]

/-- C4: chain validity: every leaf bundle successfully returned by
GenerateCert against a matched root CA certificate and key pair (the key at
caKey is the key pair certified by the certificate at ca) has a certificate
that validates against that CA certificate: it is signed by and chains to
the lab root CA. -/
theorem generateCert_chain_validity (ca caKey : String) (tpl : Tpl) (input : CertInput)
    (targetPath : String) (w : World) (certs : Certificates) (w1 : World)
    (c : SymCert) (k : SymKey)
    (hca : fsFind w.fs ca = some (.file (.certPem c)))
    (hkey : fsFind w.fs caKey = some (.file (.keyPem k)))
    (hmatch : k.keyId = c.pubKeyId)
    (hrun : GenerateCert ca caKey tpl input targetPath w = (.ok certs, w1)) :
    ∃ leaf, certs.Cert = Bytes.certPem leaf ∧ validateCert leaf c = true := by
  obtain ⟨req, c', k', hc', hk', hcerts, -⟩ :=
    generateCert_ok_inv ca caKey tpl input targetPath w certs w1 hrun
  have hca' := fsFind_createDirectory_of_found targetPath hca
  have hkey' := fsFind_createDirectory_of_found targetPath hkey
  rw [hca'] at hc'
  rw [hkey'] at hk'
  have hcc : c' = c := by
    have := (Option.some.injEq _ _).mp hc'
    have := (FNode.file.injEq _ _).mp this
    exact ((Bytes.certPem.injEq _ _).mp this).symm
  have hkk : k' = k := by
    have := (Option.some.injEq _ _).mp hk'
    have := (FNode.file.injEq _ _).mp this
    exact ((Bytes.keyPem.injEq _ _).mp this).symm
  refine ⟨{ subject := req, pubKeyId := w.nextKeyId, issuerKeyId := k.keyId,
            isCA := false }, ?_, ?_⟩
  · rw [hcerts, hkk]
    rfl
  · simp [validateCert, hmatch]

/-- Concrete matched CA pair at the well-known paths, for witnesses. -/
def caCert0 : SymCert :=
  { subject := rootReq "lab", pubKeyId := 7, issuerKeyId := 7, isCA := true }

def caKey0 : SymKey := { keyId := 7, keyReq := newKeyRequest }

def caFs : Fs :=
  [("ca.pem", FNode.file (Bytes.certPem caCert0)),
   ("ca-key.pem", FNode.file (Bytes.keyPem caKey0))]

def caWorld : World := { fs := caFs }

/-- Concrete leaf issuance input for node n1 of lab "lab". -/
def leafInput : CertInput :=
  { Name := "n1", LongName := "clab-lab-n1", Fqdn := "n1.lab.io", Prefix := "lab" }

/-- The request parsed from the node template rendered with leafInput. -/
def leafReq : CertificateRequest :=
  { CN := "n1.lab.io"
    keyRequest := { algo := "rsa", size := 2048 }
    names := [nokiaNames]
    hosts := ["n1", "clab-lab-n1", "n1.lab.io"]
    caExpiry := none }

theorem generateCert_chain_validity_witness :
    (GenerateCert "ca.pem" "ca-key.pem" Tpl.nodeTpl leafInput "tgt" caWorld).1 =
      .ok (leafCerts leafReq 7 0)
    ∧ validateCert
        { subject := leafReq, pubKeyId := 0, issuerKeyId := 7, isCA := false }
        caCert0 = true := by
  have h1 : (GenerateCert "ca.pem" "ca-key.pem" Tpl.nodeTpl leafInput "tgt" caWorld).1 =
      .ok (leafCerts leafReq 7 0) := by decide
  have hrun : GenerateCert "ca.pem" "ca-key.pem" Tpl.nodeTpl leafInput "tgt" caWorld =
      (.ok (leafCerts leafReq 7 0),
       (GenerateCert "ca.pem" "ca-key.pem" Tpl.nodeTpl leafInput "tgt" caWorld).2) := by
    rw [← h1]
  obtain ⟨leaf, hc, hv⟩ := generateCert_chain_validity "ca.pem" "ca-key.pem" Tpl.nodeTpl
    leafInput "tgt" caWorld (leafCerts leafReq 7 0) _ caCert0 caKey0
    (by decide) (by decide) rfl hrun
  have hleaf : leaf = { subject := leafReq, pubKeyId := 0, issuerKeyId := 7, isCA := false } := by
    have hcc : Bytes.certPem
        { subject := leafReq, pubKeyId := 0, issuerKeyId := 7, isCA := false } =
        Bytes.certPem leaf := hc
    exact ((Bytes.certPem.injEq _ _).mp hcc).symm
  exact ⟨h1, by rw [← hleaf]; exact hv⟩

/-- C6: empty-host leniency: when the rendered and parsed certificate
request has an empty host list and the external primitives do not fault,
GenerateCert does not fail: it appends the no-host warning to the log and
still produces, persists (all three files) and returns the bundle. -/
theorem generateCert_empty_hosts_warn_only (ca caKey : String) (tpl : Tpl)
    (input : CertInput) (targetPath : String) (w : World) (doc : DocCSR)
    (req : CertificateRequest) (c : SymCert) (k : SymKey)
    (hrender : renderNode tpl input = .ok (.ok doc))
    (hunm : unmarshalCSR (.ok doc) = .ok req)
    (hhosts : req.hosts = [])
    (hg : w.faults.genKeyFail = false) (hs : w.faults.signerNewFail = false)
    (hf : w.faults.signFail = false)
    (hca : fsFind w.fs ca = some (.file (.certPem c)))
    (hkey : fsFind w.fs caKey = some (.file (.keyPem k))) :
    ∃ certs w1,
      GenerateCert ca caKey tpl input targetPath w = (.ok certs, w1)
      ∧ w1.warnings = w.warnings ++ [CSRNoHostMessage]
      ∧ fsFind w1.fs (pathJoin targetPath input.Name ++ ".pem") = some (.file certs.Cert)
      ∧ fsFind w1.fs (pathJoin targetPath input.Name ++ "-key.pem") = some (.file certs.Key)
      ∧ fsFind w1.fs (pathJoin targetPath input.Name ++ ".csr") = some (.file certs.Csr) := by
  have hca' := fsFind_createDirectory_of_found targetPath hca
  have hkey' := fsFind_createDirectory_of_found targetPath hkey
  have hrun := generateCert_run ca caKey tpl input targetPath w doc req c k
    hrender hunm hg hs hf hca' hkey'
  refine ⟨leafCerts req k.keyId w.nextKeyId, _, hrun, ?_, ?_, ?_, ?_⟩
  · simp [hhosts]
  · exact fsFind_write_pem _ _ _
  · exact fsFind_write_key _ _ _
  · exact fsFind_write_csr _ _ _

/-- Rendered document whose host list is present but empty. -/
def emptyHostsDoc : DocCSR :=
  { cn := some "solo", key := none, names := none, hosts := some [], caExpiry := none }

theorem generateCert_empty_hosts_warn_only_witness :
    (GenerateCert "ca.pem" "ca-key.pem" (Tpl.constTpl (Doc.ok emptyHostsDoc)) {} "tgt"
        caWorld).2.warnings = [CSRNoHostMessage] := by
  obtain ⟨certs, w1, hrun, hwarn, -, -, -⟩ :=
    generateCert_empty_hosts_warn_only "ca.pem" "ca-key.pem"
      (Tpl.constTpl (Doc.ok emptyHostsDoc)) {} "tgt" caWorld emptyHostsDoc
      { CN := "solo", keyRequest := newKeyRequest, names := [], hosts := [], caExpiry := none }
      caCert0 caKey0 rfl rfl rfl rfl rfl rfl (by decide) (by decide)
  rw [hrun]
  simpa using hwarn

/-- Any failed GenerateCert run leaves the file system exactly as the
initial directory creation left it. -/
theorem generateCert_error_inv (ca caKey : String) (tpl : Tpl) (input : CertInput)
    (targetPath : String) (w : World) (e : String) (w1 : World)
    (hrun : GenerateCert ca caKey tpl input targetPath w = (.error e, w1)) :
    w1.fs = createDirectory targetPath w.fs := by
  simp only [GenerateCert] at hrun
  split at hrun
  next e2 heq => simp only [Prod.mk.injEq] at hrun; rw [← hrun.2]
  next doc heq =>
    split at hrun
    next e2 heq2 => simp only [Prod.mk.injEq] at hrun; rw [← hrun.2]
    next req heq2 =>
      split at hrun
      next e2 heq3 => simp only [Prod.mk.injEq] at hrun; rw [← hrun.2]
      next csrB keyB w2 heq3 =>
        obtain ⟨-, hw2⟩ := processRequest_ok_inv heq3
        split at hrun
        next e2 heq4 =>
          simp only [Prod.mk.injEq] at hrun
          rw [← hrun.2, hw2]
        next s heq4 =>
          split at hrun
          next e2 heq5 =>
            simp only [Prod.mk.injEq] at hrun
            rw [← hrun.2, hw2]
          next cert heq5 => simp at hrun

/-- C7: issuance failure propagation: whenever GenerateCert returns an
error (template rendering, request unmarshalling, key generation, signer
construction or signing failed), no bundle is returned (the result is the
error alone) and none of the three certificate files is written: the file
system is exactly the input file system after the initial create-if-missing
directory creation. -/
theorem generateCert_error_writes_no_files (ca caKey : String) (tpl : Tpl)
    (input : CertInput) (targetPath : String) (w : World) (e : String)
    (herr : (GenerateCert ca caKey tpl input targetPath w).1 = .error e) :
    (GenerateCert ca caKey tpl input targetPath w).2.fs =
      createDirectory targetPath w.fs := by
  have hrun : GenerateCert ca caKey tpl input targetPath w =
      (.error e, (GenerateCert ca caKey tpl input targetPath w).2) := by
    rw [← herr]
  exact generateCert_error_inv ca caKey tpl input targetPath w e _ hrun

/-- World whose external key-generation primitive faults. -/
def genKeyFailWorld : World := { fs := caFs, faults := { genKeyFail := true } }

theorem generateCert_error_writes_no_files_witness :
    (GenerateCert "ca.pem" "ca-key.pem" Tpl.nodeTpl leafInput "tgt" genKeyFailWorld).2.fs =
      createDirectory "tgt" caFs :=
  generateCert_error_writes_no_files "ca.pem" "ca-key.pem" Tpl.nodeTpl leafInput "tgt"
    genKeyFailWorld "failed to generate key" (by decide)

/-- C10: persist-then-load round trip: when GenerateCert succeeds for a
node with input Name equal to the node short name and target path
labCADir/shortName (whose path was previously absent or a directory), a
subsequent RetrieveNodeCertData returns a bundle whose Cert and Key equal
the issued bundle's Cert and Key byte for byte, and whose Csr is always
empty: the .csr file is written but never read back. -/
theorem persist_then_load_round_trip (labCADir shortName ca caKey : String) (tpl : Tpl)
    (input : CertInput) (w : World) (certs : Certificates) (w1 : World)
    (hname : input.Name = shortName)
    (hdir : fsFind w.fs (pathJoin labCADir shortName) = none
            ∨ fsFind w.fs (pathJoin labCADir shortName) = some .dir)
    (hrun : GenerateCert ca caKey tpl input (pathJoin labCADir shortName) w =
      (.ok certs, w1)) :
    RetrieveNodeCertData shortName labCADir w1.fs =
      (some { Key := certs.Key, Csr := Bytes.raw "", Cert := certs.Cert }, none) := by
  obtain ⟨req, c, k, -, -, -, hfs⟩ :=
    generateCert_ok_inv ca caKey tpl input (pathJoin labCADir shortName) w certs w1 hrun
  have hprefix : pathJoin (pathJoin labCADir shortName) input.Name =
      pathJoin (pathJoin labCADir shortName) shortName := by rw [hname]
  have hdirfind : fsFind w1.fs (pathJoin labCADir shortName) = some .dir := by
    rw [hfs, fsFind_writeCertFiles]
    rw [if_neg (by rw [pathJoin_append]; exact (pathJoin_ne_left _ _).symm)]
    rw [if_neg (by rw [pathJoin_append]; exact (pathJoin_ne_left _ _).symm)]
    rw [if_neg (by rw [pathJoin_append]; exact (pathJoin_ne_left _ _).symm)]
    cases hdir with
    | inl h => simp [createDirectory, h, fsSet, fsFind]
    | inr h => simp [createDirectory, h]
  have hcertfind : fsFind w1.fs
      (pathJoin (pathJoin labCADir shortName) (shortName ++ ".pem")) =
      some (.file certs.Cert) := by
    rw [hfs]
    have hp : pathJoin (pathJoin labCADir shortName) (shortName ++ ".pem") =
        pathJoin (pathJoin labCADir shortName) input.Name ++ ".pem" := by
      rw [pathJoin_append, hname]
    rw [hp, fsFind_write_pem]
  have hkeyfind : fsFind w1.fs
      (pathJoin (pathJoin labCADir shortName) (shortName ++ "-key.pem")) =
      some (.file certs.Key) := by
    rw [hfs]
    have hp : pathJoin (pathJoin labCADir shortName) (shortName ++ "-key.pem") =
        pathJoin (pathJoin labCADir shortName) input.Name ++ "-key.pem" := by
      rw [pathJoin_append, hname]
    rw [hp, fsFind_write_key]
  simp [RetrieveNodeCertData, stat, hdirfind, FNode.isDir, readFileContent,
    hcertfind, hkeyfind]

theorem persist_then_load_round_trip_witness :
    RetrieveNodeCertData "n1" "lab"
      (GenerateCert "ca.pem" "ca-key.pem" Tpl.nodeTpl leafInput
        (pathJoin "lab" "n1") caWorld).2.fs =
      (some { Key := (leafCerts leafReq 7 0).Key, Csr := Bytes.raw "",
              Cert := (leafCerts leafReq 7 0).Cert }, none) := by
  have h1 : (GenerateCert "ca.pem" "ca-key.pem" Tpl.nodeTpl leafInput
      (pathJoin "lab" "n1") caWorld).1 = .ok (leafCerts leafReq 7 0) := by decide
  have hrun : GenerateCert "ca.pem" "ca-key.pem" Tpl.nodeTpl leafInput
      (pathJoin "lab" "n1") caWorld =
      (.ok (leafCerts leafReq 7 0),
       (GenerateCert "ca.pem" "ca-key.pem" Tpl.nodeTpl leafInput
         (pathJoin "lab" "n1") caWorld).2) := by
    rw [← h1]
  exact persist_then_load_round_trip "lab" "n1" "ca.pem" "ca-key.pem" Tpl.nodeTpl
    leafInput caWorld (leafCerts leafReq 7 0) _ rfl (Or.inl (by decide)) hrun

end CertSpec
